import Mathlib

/-!
Verification of the feed-parsing and batch-extraction logic of
`ComfyUI_RSS_Tool` (`__init__.py`), shallowly embedded in Lean 4.

Stage 1 (`RSSFeedParserNode.execute`) fetches a feed, strips an XML
declaration, parses the document, dispatches on the root tag (RSS vs Atom)
and extracts article links.  Stage 2 (`ArticleContentExtractorNode.execute`)
splits a newline-delimited link list, processes each link with the article
extractor and concatenates formatted result blocks.

External collaborators (HTTP client, XML parser, article extractor, NLTK
asset store) are modelled as explicit oracle parameters; the control flow,
string formatting, dispatch and error handling are embedded from the source.
-/

set_option autoImplicit false

/-! ## XML element model

An element as exposed by `lxml.etree`: a tag, an attribute list, the text
node before the first child, and the child elements in document order. -/

inductive XML where
  | elem (tag : String) (attrs : List (String × String)) (text : Option String)
         (children : List XML)

def XML.tag : XML → String
  | .elem t _ _ _ => t

def XML.attrs : XML → List (String × String)
  | .elem _ a _ _ => a

def XML.text : XML → Option String
  | .elem _ _ t _ => t

def XML.children : XML → List XML
  | .elem _ _ _ c => c

/-- Attribute lookup, `element.get(name)` in lxml. -/
def XML.getAttr (e : XML) (name : String) : Option String :=
  (e.attrs.find? (fun p => p.1 == name)).map (fun p => p.2)

mutual

/-- All proper descendant elements of `e`, in document (pre-)order:
the node set selected by the path `.//*`. -/
def XML.descendants : XML → List XML
  | .elem _ _ _ cs => XML.descList cs

def XML.descList : List XML → List XML
  | [] => []
  | c :: rest => c :: (XML.descendants c ++ XML.descList rest)

end

/-- `element.find(tag)`: the first direct child with the given tag. -/
def XML.findChild (e : XML) (t : String) : Option XML :=
  e.children.find? (fun c => c.tag == t)

/-- `element.findtext(tag)` after a successful `find`: the text of the
element, with a missing text node read as the empty string (ElementTree
`findtext` returns `""` when the matched element has no text). -/
def XML.textOrEmpty (e : XML) : String :=
  e.text.getD ""

/-! ## Stage 1: `RSSFeedParserNode`

`parse_rss` is
`[item.findtext('link') for item in root.xpath('.//item') if item.find('link') is not None]`:
every `item` element anywhere below the root, document order, keeping the
`link` child text of each item that has a `link` child. -/

def RSSFeedParserNode.parse_rss (root : XML) : List String :=
  ((XML.descendants root).filter (fun e => e.tag == "item")).filterMap
    (fun item => (item.findChild "link").map XML.textOrEmpty)

/-- The Atom namespace prefix of a qualified lxml tag,
`\x7bhttp://www.w3.org/2005/Atom\x7d` (lxml spells namespaced tags with the
URI in braces). -/
def atomNS : String := "\x7bhttp://www.w3.org/2005/Atom\x7d"

/-- All `\x7bAtom\x7dentry` elements below the root, document order:
`root.findall('.//atom:entry', ns)`. -/
def atomEntries (root : XML) : List XML :=
  (XML.descendants root).filter (fun e => e.tag == atomNS ++ "entry")

/-! ### The ElementPath engine used by `find`/`findtext`

`parse_atom` calls
`entry.findtext('.//atom:link[@rel="alternate"]/@href', namespaces=ns)`.
`findtext` compiles its path with the ElementPath engine (lxml
`_elementpath.py`), whose step table handles only the operators
`""`, `*`, `.`, `..`, `//` and `[`; an attribute selection step such as
`@href` outside a predicate is not in the table, so compiling the path
fails (the engine raises before any entry is inspected).  We embed the
tokenised path and the step table's domain. -/

inductive PathStep where
  | selfStep
  | descendantStep
  | childStep (tag : String)
  | predAttrEq (attr : String) (val : String)
  | attrStep (attr : String)
deriving DecidableEq

/-- The steps of `.//atom:link[@rel="alternate"]/@href`, tokenised. -/
def atomHrefPath : List PathStep :=
  [.selfStep, .descendantStep, .childStep (atomNS ++ "link"),
   .predAttrEq "rel" "alternate", .attrStep "href"]

/-- Whether the ElementPath step table has a handler for the step. -/
def stepSupported : PathStep → Bool
  | .selfStep => true
  | .descendantStep => true
  | .childStep _ => true
  | .predAttrEq _ _ => true
  | .attrStep _ => false

/-- One ElementPath step over a node set (document order). -/
def runStep (s : PathStep) (nodes : List XML) : List XML :=
  match s with
  | .selfStep => nodes
  | .descendantStep => nodes.flatMap XML.descendants
  | .childStep t => nodes.flatMap (fun e => e.children.filter (fun c => c.tag == t))
  | .predAttrEq a v => nodes.filter (fun e => e.getAttr a == some v)
  | .attrStep _ => nodes

/-- Error message for a path the ElementPath engine cannot compile. -/
def pathErrMsg : String := "@"

/-- Message of the TypeError `str.join` raises on a `None` item. -/
def joinNoneErrMsg : String := "sequence item 0: expected str instance, NoneType found"

/-- `element.findtext(path, namespaces=ns)` for a compiled-step path:
path compilation fails if any step is unsupported; otherwise the text of
the first selected element (or `""` for a matched element without text),
`none` when no element matches. -/
def findtextPath (e : XML) (path : List PathStep) : Except String (Option String) :=
  if path.all stepSupported then
    .ok (((path.foldl (fun ns s => runStep s ns) [e]).head?).map XML.textOrEmpty)
  else
    .error pathErrMsg

/-- `parse_atom`: the list comprehension evaluates
`entry.findtext('.//atom:link[@rel="alternate"]/@href', namespaces=ns)` for
each entry; the first such call raises (unsupported `@href` step), so the
comprehension only completes on a document with no entries. -/
def RSSFeedParserNode.parse_atom (root : XML) : Except String (List (Option String)) :=
  (atomEntries root).mapM (fun entry => findtextPath entry atomHrefPath)

/-! ### XML-declaration stripping

`response.text.replace('<?xml version="1.0" encoding="UTF-8"?>', '')`:
Python `str.replace` removes every (left-to-right, non-overlapping)
occurrence of the exact pattern, not just a leading one. -/

/-- The exact declaration string the source removes. -/
def xmlDeclString : String := "<?xml version=\"1.0\" encoding=\"UTF-8\"?>"

def xmlDeclChars : List Char := xmlDeclString.data

/-- Python `str.replace(pat, rep)` on character lists: replace every
left-to-right, non-overlapping occurrence of `pat` (assumed non-empty).
Fuel-based structural recursion; `fuel ≥ length` makes it total. -/
def pyReplaceAux (pat rep : List Char) : Nat → List Char → List Char
  | _, [] => []
  | 0, c :: rest => c :: rest
  | fuel + 1, c :: rest =>
    if pat.isPrefixOf (c :: rest) ∧ pat ≠ [] then
      rep ++ pyReplaceAux pat rep fuel (List.drop (pat.length - 1) rest)
    else
      c :: pyReplaceAux pat rep fuel rest

def pyReplace (pat rep s : List Char) : List Char :=
  pyReplaceAux pat rep s.length s

/-- The declaration-stripping step of `execute`. -/
def stripXmlDecl (s : String) : String :=
  ⟨pyReplace xmlDeclChars [] s.data⟩

/-! ### `RSSFeedParserNode.execute`

The HTTP fetch (`requests.get` + `raise_for_status` + UTF-8 decode) is an
oracle `fetchRes` delivering either the decoded body or the message of the
raised exception; XML parsing (`etree.parse`) is an oracle `parseFn`
delivering the root element or the parse error message.  The Python method
wraps everything in `try/except Exception` and always returns a string. -/

def RSSFeedParserNode.execute (fetchRes : Except String String)
    (parseFn : String → Except String XML) : String :=
  match fetchRes with
  | .error m => "Error parsing feed: " ++ m
  | .ok body =>
    let xmlContent := stripXmlDecl body
    match parseFn xmlContent with
    | .error m => "Error parsing feed: " ++ m
    | .ok root =>
      if root.tag == "rss" then
        String.intercalate "\n" (RSSFeedParserNode.parse_rss root)
      else if atomNS.data.isPrefixOf root.tag.data then
        match RSSFeedParserNode.parse_atom root with
        | .ok links =>
          match links.mapM (fun o => o) with
          | some ls => String.intercalate "\n" ls
          | none => "Error parsing feed: " ++ joinNoneErrMsg
        | .error m => "Error parsing feed: " ++ m
      else
        "Error parsing feed: " ++ ("Unsupported feed format: " ++ root.tag)

/-! ## Stage 2: `ArticleContentExtractorNode`

Per-link article processing (`newspaper.Article`): `download()`, `parse()`
and `nlp()` are external calls; the oracle `LinkEnv` gives, for one link,
the error message each call would raise (`none` = success) and the article
fields the successful calls deliver. -/

/-- The boolean configuration of one stage-2 invocation. -/
structure ExtractOptions where
  extract_title : Bool
  extract_summary : Bool
  extract_text : Bool
  clear_nltk_data : Bool

structure ArticleData where
  title : String
  summary : String
  text : String

structure LinkEnv where
  downloadErr : Option String
  parseErr : Option String
  nlpErr : Option String
  data : ArticleData

/-- The observable external steps of processing one link. -/
inductive Step where
  | download
  | parseArticle
  | nlp
deriving DecidableEq

/-- `"-" * 50`, the separator line. -/
def sepLine : String := ⟨List.replicate 50 '-'⟩

/-- `article.text[:500]`: Python slicing by code points. -/
def truncate500 (s : String) : String := ⟨s.data.take 500⟩

/-- The block appended on a per-link failure:
`f"Error processing {link}: {str(e)}\n" + "-" * 50 + "\n"`. -/
def errorBlock (link msg : String) : String :=
  "Error processing " ++ link ++ ": " ++ msg ++ "\n" ++ (sepLine ++ "\n")

/-- The body of the `for link in links` loop: the block appended to
`results` for this link, together with the external steps attempted.
Failures propagate to the local `except`, which emits `errorBlock`. -/
def processLink (opts : ExtractOptions) (link : String) (env : LinkEnv) :
    String × List Step :=
  match env.downloadErr with
  | some m => (errorBlock link m, [Step.download])
  | none =>
  match env.parseErr with
  | some m => (errorBlock link m, [Step.download, Step.parseArticle])
  | none =>
    let content := "URL: " ++ link ++ "\n"
    let content := if opts.extract_title
      then content ++ ("Title: " ++ env.data.title ++ "\n") else content
    if opts.extract_summary then
      match env.nlpErr with
      | some m => (errorBlock link m, [Step.download, Step.parseArticle, Step.nlp])
      | none =>
        let content := content ++ ("Summary: " ++ env.data.summary ++ "\n")
        let content := if opts.extract_text
          then content ++ ("Text: " ++ truncate500 env.data.text ++ "...\n") else content
        (content ++ (sepLine ++ "\n"), [Step.download, Step.parseArticle, Step.nlp])
    else
      let content := if opts.extract_text
        then content ++ ("Text: " ++ truncate500 env.data.text ++ "...\n") else content
      (content ++ (sepLine ++ "\n"), [Step.download, Step.parseArticle])

/-- Python `str` whitespace (the characters `str.strip` removes). -/
def pySpace (c : Char) : Bool :=
  c == ' ' || c == '\t' || c == '\n' || c == '\r' || c == '\x0b' || c == '\x0c'

/-- `link.strip()`: remove leading and trailing whitespace. -/
def pyStrip (l : List Char) : List Char :=
  ((l.dropWhile pySpace).reverse.dropWhile pySpace).reverse

/-- `feed_links.split('\n')`: split on every separator occurrence;
the empty string splits to `[""]`. -/
def splitOnChar (sep : Char) : List Char → List (List Char)
  | [] => [[]]
  | c :: rest =>
    match splitOnChar sep rest with
    | [] => [[]]
    | g :: gs => if c == sep then [] :: g :: gs else (c :: g) :: gs

/-- `[link.strip() for link in feed_links.split('\n') if link.strip()]`. -/
def nonBlankLinks (feed_links : String) : List String :=
  ((((splitOnChar '\n' feed_links.data).map pyStrip).filter
    (fun l => l != [])).map (fun l => String.mk l))

/-- The loop over `links`, accumulating one block per link (the oracle is
indexed by loop position, so the same URL may behave differently at two
positions). -/
def batchBlocks (opts : ExtractOptions) (env : Nat → LinkEnv) :
    Nat → List String → List String
  | _, [] => []
  | i, link :: rest =>
    (processLink opts link (env i)).1 :: batchBlocks opts env (i + 1) rest

/-- `ArticleContentExtractorNode.execute`, report value:
`"\n".join(results)`.  The punkt check before the loop and the optional
cleanup after it only touch the filesystem and stdout, never `results`. -/
def ArticleContentExtractorNode.execute (opts : ExtractOptions)
    (feed_links : String) (env : Nat → LinkEnv) : String :=
  String.intercalate "\n" (batchBlocks opts env 0 (nonBlankLinks feed_links))

/-! ### Effect trace of one invocation

For the frame/effect claims the same method is embedded as the list of
external effects it performs, in order: the punkt availability check
(`nltk.data.find`), the conditional download on miss (`nltk.download`,
quiet, state afterwards depends on whether the download succeeded), the
per-link article steps, and the optional cleanup (`shutil.rmtree` guarded
by `os.path.exists`). -/

inductive Effect where
  | assetCheck
  | assetFetch
  | artDownload (i : Nat)
  | artParse (i : Nat)
  | artNlp (i : Nat)
  | cleanupRemove
deriving DecidableEq

/-- The `try: nltk.data.find('tokenizers/punkt') except LookupError:
nltk.download('punkt', ...)` prologue: given whether the asset is present
and whether a download would succeed, the resulting presence state and the
effects performed. -/
def checkPunkt (present downloadOk : Bool) : Bool × List Effect :=
  if present then (true, [Effect.assetCheck])
  else (downloadOk, [Effect.assetCheck, Effect.assetFetch])

def stepEffect (i : Nat) : Step → Effect
  | .download => .artDownload i
  | .parseArticle => .artParse i
  | .nlp => .artNlp i

/-- Effects of the batch loop, in loop order. -/
def batchEffects (opts : ExtractOptions) (env : Nat → LinkEnv) :
    Nat → List String → List Effect
  | _, [] => []
  | i, link :: rest =>
    (processLink opts link (env i)).2.map (stepEffect i)
      ++ batchEffects opts env (i + 1) rest

/-- The `if clear_nltk_data:` epilogue: remove the punkt subtree if it
exists. -/
def punktCleanupEffects (clear punktPresent : Bool) : List Effect :=
  if clear then (if punktPresent then [Effect.cleanupRemove] else []) else []

/-- Full effect trace of one `ArticleContentExtractorNode.execute`
invocation. -/
def ArticleContentExtractorNode.executeEffects (opts : ExtractOptions)
    (feed_links : String) (env : Nat → LinkEnv)
    (punktPresent downloadOk : Bool) : List Effect :=
  let check := checkPunkt punktPresent downloadOk
  check.2 ++ batchEffects opts env 0 (nonBlankLinks feed_links)
    ++ punktCleanupEffects opts.clear_nltk_data check.1

/-! ## Claim-side definitions

Definitions written from the specification's words, to be compared with
the embedded source functions, plus the failure view of one link's oracle
and concrete documents used in counterexamples and witnesses. -/

/-- The RSS link list exactly as the claim words it: the ordered list of
non-empty `link` child texts of every `item`, items lacking a `link`
skipped. -/
def specRssLinks (root : XML) : List String :=
  (XML.descendants root).filterMap (fun e =>
    if e.tag = "item" then
      match e.findChild "link" with
      | some l => if XML.textOrEmpty l = "" then none else some (XML.textOrEmpty l)
      | none => none
    else none)

/-- The RSS link list with the amendment: the `link` child text (possibly
empty) of every `item` having a `link` child, document order. -/
def specRssLinksAmended (root : XML) : List String :=
  (XML.descendants root).filterMap (fun e =>
    if e.tag = "item" then (e.findChild "link").map XML.textOrEmpty else none)

/-- The Atom link list as the claim words it: for every `entry`, the
`href` of the `link` element under it whose `rel` equals `"alternate"`;
entries lacking such a link skipped. -/
def specAtomLinks (root : XML) : List String :=
  (atomEntries root).filterMap (fun entry =>
    ((XML.descendants entry).find? (fun l =>
        l.tag == atomNS ++ "link" && l.getAttr "rel" == some "alternate")).bind
      (fun l => l.getAttr "href"))

/-- Whether the exact declaration string occurs anywhere in `s`. -/
def xmlDeclOccurs (s : String) : Bool :=
  (List.range (s.data.length + 1)).any
    (fun i => xmlDeclChars.isPrefixOf (s.data.drop i))

/-- The message of the exception the `try` body raises for one link under
the given oracle, if any: the download error, else the parse error, else —
only when the summary pass runs — the nlp error. -/
def failMsg (opts : ExtractOptions) (env : LinkEnv) : Option String :=
  match env.downloadErr with
  | some m => some m
  | none =>
    match env.parseErr with
    | some m => some m
    | none => if opts.extract_summary then env.nlpErr else none

/-- An RSS document whose single `item` has a `link` child with no text. -/
def rssEmptyLinkDoc : XML :=
  .elem "rss" [] none
    [.elem "channel" [] none
      [.elem "item" [] none [.elem "link" [] none []]]]

/-- An RSS document with two linked items, one item lacking a `link`. -/
def rssTwoItemDoc : XML :=
  .elem "rss" [] none
    [.elem "channel" [] none
      [.elem "item" [] none [.elem "link" [] (some "https://example.org/r1") []],
       .elem "item" [] none [.elem "title" [] (some "no link") []],
       .elem "item" [] none [.elem "link" [] (some "https://example.org/r2") []]]]

/-- An Atom document with one entry holding a `rel="alternate"` link. -/
def atomOneEntryDoc : XML :=
  .elem (atomNS ++ "feed") [] none
    [.elem (atomNS ++ "entry") [] none
      [.elem (atomNS ++ "link")
         [("rel", "alternate"), ("href", "https://example.org/a1")] none []]]

/-- A document with the exact declaration string in the middle and no
leading declaration. -/
def midDeclDoc : String := "<rss>a" ++ xmlDeclString ++ "b</rss>"

/-- A link oracle whose every step succeeds with fixed article fields. -/
def okEnv : LinkEnv :=
  ⟨none, none, none, ⟨"T", "S", "body text"⟩⟩

/-- A link oracle whose download fails. -/
def failEnv (msg : String) : LinkEnv :=
  ⟨some msg, none, none, ⟨"", "", ""⟩⟩

/-! # Helper lemmas -/

theorem pyReplaceAux_fuel_irrel (pat rep : List Char) :
    ∀ f₁ f₂ s, s.length ≤ f₁ → s.length ≤ f₂ →
      pyReplaceAux pat rep f₁ s = pyReplaceAux pat rep f₂ s := by
  intro f₁
  induction f₁ with
  | zero =>
    intro f₂ s h₁ _
    cases s with
    | nil => cases f₂ <;> rfl
    | cons c rest => simp at h₁
  | succ f ih =>
    intro f₂ s h₁ h₂
    cases s with
    | nil => cases f₂ <;> rfl
    | cons c rest =>
      cases f₂ with
      | zero => simp at h₂
      | succ f₂' =>
        simp only [pyReplaceAux]
        by_cases hc : pat.isPrefixOf (c :: rest) = true ∧ pat ≠ []
        · rw [if_pos hc, if_pos hc,
            ih f₂' (List.drop (pat.length - 1) rest)
              (by simp only [List.length_drop]
                  simp only [List.length_cons] at h₁; omega)
              (by simp only [List.length_drop]
                  simp only [List.length_cons] at h₂; omega)]
        · rw [if_neg hc, if_neg hc,
            ih f₂' rest
              (by simp only [List.length_cons] at h₁; omega)
              (by simp only [List.length_cons] at h₂; omega)]

theorem pyReplaceAux_no_occ (pat rep : List Char) :
    ∀ fuel s, s.length ≤ fuel →
      (∀ i, pat.isPrefixOf (List.drop i s) = false) →
      pyReplaceAux pat rep fuel s = s := by
  intro fuel
  induction fuel with
  | zero =>
    intro s h _
    cases s with
    | nil => rfl
    | cons c rest => simp at h
  | succ f ih =>
    intro s h hocc
    cases s with
    | nil => rfl
    | cons c rest =>
      simp only [pyReplaceAux]
      rw [if_neg]
      · rw [ih rest (by simp only [List.length_cons] at h; omega)
            (fun i => by simpa using hocc (i + 1))]
      · intro hc
        have h0 := hocc 0
        simp only [List.drop_zero] at h0
        simp [h0] at hc

/-- `pyReplace` with no occurrence of the pattern is the identity. -/
theorem pyReplace_no_occ (pat rep s : List Char)
    (hocc : ∀ i, pat.isPrefixOf (List.drop i s) = false) :
    pyReplace pat rep s = s :=
  pyReplaceAux_no_occ pat rep s.length s (Nat.le_refl _) hocc

/-- `pyReplace` on a string starting with the (non-empty) pattern removes
that occurrence and continues on the remainder. -/
theorem pyReplace_removes_leading (pat rep t : List Char) (hpat : pat ≠ []) :
    pyReplace pat rep (pat ++ t) = rep ++ pyReplace pat rep t := by
  cases pat with
  | nil => exact absurd rfl hpat
  | cons p ps =>
    show pyReplaceAux _ _ ((p :: ps) ++ t).length ((p :: ps) ++ t) = _
    simp only [List.cons_append, List.length_cons]
    simp only [pyReplaceAux]
    rw [if_pos]
    · have hdrop : List.drop ((p :: ps).length - 1) (ps ++ t) = t := by
        simp only [List.length_cons, Nat.add_sub_cancel]
        exact List.drop_left ps t
      rw [hdrop, pyReplaceAux_fuel_irrel (p :: ps) rep (ps ++ t).length t.length t
          (by simp) (Nat.le_refl _)]
      rfl
    · exact ⟨List.isPrefixOf_iff_prefix.mpr (List.prefix_append (p :: ps) t),
        by simp⟩

theorem stage2_filterMapFilter {α β : Type} (p : α → Bool) (f : α → Option β)
    (l : List α) :
    (l.filter p).filterMap f = l.filterMap (fun a => if p a then f a else none) :=
  List.filterMap_filter p f l

/-! # Claim theorems: stage 1 -/

/-- C6 (amended): on a successful fetch, the decoded body has every
occurrence of the exact string `<?xml version="1.0" encoding="UTF-8"?>`
removed before parsing (not only a leading one): a body without an
occurrence of that exact string is passed to the parser unchanged, and a
body starting with it has that occurrence removed with the remainder
processed the same way. -/
theorem strip_decl_removes_every_occurrence (t : String) :
    (xmlDeclOccurs t = false → stripXmlDecl t = t) ∧
    stripXmlDecl ⟨xmlDeclChars ++ t.data⟩ = stripXmlDecl t := by
  constructor
  · intro h
    have hocc : ∀ i, xmlDeclChars.isPrefixOf (List.drop i t.data) = false := by
      intro i
      by_cases hi : i < t.data.length + 1
      · have hall := List.any_eq_false.mp h
        have hmem := hall i (List.mem_range.mpr hi)
        simp only [Bool.not_eq_true] at hmem
        exact hmem
      · rw [List.drop_eq_nil_of_le (by omega)]
        decide
    show String.mk (pyReplace xmlDeclChars [] t.data) = t
    rw [pyReplace_no_occ xmlDeclChars [] t.data hocc]
  · show String.mk (pyReplace xmlDeclChars [] (xmlDeclChars ++ t.data)) = _
    rw [pyReplace_removes_leading xmlDeclChars [] t.data (by decide)]
    rfl

/-- C6 witness: a concrete body without the declaration string is passed
through unchanged. -/
theorem strip_decl_removes_every_occurrence_witness :
    stripXmlDecl "<rss/>" = "<rss/>" :=
  (strip_decl_removes_every_occurrence "<rss/>").1 (by decide)

/-- C6 counterexample: a body with no leading XML declaration but with the
exact declaration string mid-document is changed before parsing, so the
claimed "strip a leading declaration, pass the rest unchanged" behaviour
is false on this input. -/
theorem strip_decl_not_only_leading :
    xmlDeclChars.isPrefixOf midDeclDoc.data = false ∧
    stripXmlDecl midDeclDoc ≠ midDeclDoc ∧
    stripXmlDecl midDeclDoc = "<rss>ab</rss>" := by decide

/-- C4 (amended): for every well-formed RSS document, the extracted link
list equals the ordered (document-order) list of `link` child texts of
every `item` element anywhere in the document — the text read as `""` when
the `link` element is empty — with items lacking a `link` child skipped. -/
theorem parse_rss_matches_amended_spec (root : XML) :
    RSSFeedParserNode.parse_rss root = specRssLinksAmended root := by
  unfold RSSFeedParserNode.parse_rss specRssLinksAmended
  rw [stage2_filterMapFilter]
  congr 1
  funext e
  by_cases h : e.tag = "item" <;> simp [h]

/-- C4 counterexample: an item whose `link` child has no text contributes
the empty string to the code's list, while the claimed list of non-empty
`link` texts skips it, so the lists differ on this document. -/
theorem parse_rss_keeps_empty_link_text :
    RSSFeedParserNode.parse_rss rssEmptyLinkDoc = [""] ∧
    specRssLinks rssEmptyLinkDoc = [] ∧
    RSSFeedParserNode.parse_rss rssEmptyLinkDoc ≠ specRssLinks rssEmptyLinkDoc := by
  decide

/-- C2 (code bug): on an Atom document with one entry carrying a
`rel="alternate"` link, the link list the claim describes is the one-href
list, but `parse_atom`'s `findtext` path (an attribute step `@href`,
unsupported by the ElementPath engine behind `findtext`) raises before any
entry is read, so stage 1 returns an `Error parsing feed: ` diagnostic
instead of the links. -/
theorem parse_atom_path_rejected :
    specAtomLinks atomOneEntryDoc = ["https://example.org/a1"] ∧
    RSSFeedParserNode.parse_atom atomOneEntryDoc = Except.error pathErrMsg ∧
    RSSFeedParserNode.execute (Except.ok "")
        (fun _ => Except.ok atomOneEntryDoc) =
      "Error parsing feed: " ++ pathErrMsg := by
  refine ⟨by decide, rfl, by decide⟩

/-- C3: stage 1 returns a string prefixed `Error parsing feed: ` on every
failure — fetch failure, parse failure, or an unsupported root tag — and
in the unsupported-root case the returned string ends with (hence
contains) the offending root tag.  The embedding is a total function, so
no exception can propagate. -/
theorem stage1_error_contract (fetchRes : Except String String)
    (parseFn : String → Except String XML) :
    (∀ m, fetchRes = Except.error m →
      RSSFeedParserNode.execute fetchRes parseFn = "Error parsing feed: " ++ m) ∧
    (∀ body m, fetchRes = Except.ok body →
      parseFn (stripXmlDecl body) = Except.error m →
      RSSFeedParserNode.execute fetchRes parseFn = "Error parsing feed: " ++ m) ∧
    (∀ body root, fetchRes = Except.ok body →
      parseFn (stripXmlDecl body) = Except.ok root →
      root.tag ≠ "rss" → atomNS.data.isPrefixOf root.tag.data = false →
      RSSFeedParserNode.execute fetchRes parseFn =
        "Error parsing feed: " ++ ("Unsupported feed format: " ++ root.tag) ∧
      ∃ p, RSSFeedParserNode.execute fetchRes parseFn = p ++ root.tag) := by
  refine ⟨?_, ?_, ?_⟩
  · rintro m rfl
    rfl
  · rintro body m rfl hp
    simp [RSSFeedParserNode.execute, hp]
  · rintro body root rfl hp hrss hatom
    have hres : RSSFeedParserNode.execute (Except.ok body) parseFn =
        "Error parsing feed: " ++ ("Unsupported feed format: " ++ root.tag) := by
      simp [RSSFeedParserNode.execute, hp, hrss, hatom]
    refine ⟨hres, "Error parsing feed: " ++ "Unsupported feed format: ", ?_⟩
    rw [hres, String.append_assoc]

/-- C3 witness: concrete failing fetch yields the diagnostic string. -/
theorem stage1_error_contract_witness :
    RSSFeedParserNode.execute (Except.error "timeout")
        (fun _ => Except.error "unused") = "Error parsing feed: timeout" :=
  (stage1_error_contract (Except.error "timeout")
    (fun _ => Except.error "unused")).1 "timeout" rfl

/-! # Helper lemmas: stage 2 -/

theorem processLink_fail (opts : ExtractOptions) (link : String) (env : LinkEnv)
    (m : String) (h : failMsg opts env = some m) :
    (processLink opts link env).1 = errorBlock link m := by
  obtain ⟨dl, pe, ne, da⟩ := env
  cases dl with
  | some m' =>
    simp only [failMsg, Option.some.injEq] at h
    simp [processLink, errorBlock, h]
  | none =>
    cases pe with
    | some m' =>
      simp only [failMsg, Option.some.injEq] at h
      simp [processLink, errorBlock, h]
    | none =>
      cases hs : opts.extract_summary with
      | false => simp [failMsg, hs] at h
      | true =>
        cases ne with
        | none => simp [failMsg, hs] at h
        | some m' =>
          simp only [failMsg, hs, if_true, Option.some.injEq] at h
          simp [processLink, errorBlock, hs, h]

theorem processLink_ends_sep (opts : ExtractOptions) (link : String)
    (env : LinkEnv) :
    ∃ pre, (processLink opts link env).1 = pre ++ (sepLine ++ "\n") := by
  obtain ⟨dl, pe, ne, da⟩ := env
  cases dl with
  | some m => exact ⟨_, rfl⟩
  | none =>
    cases pe with
    | some m => exact ⟨_, rfl⟩
    | none =>
      cases hs : opts.extract_summary with
      | false =>
        simp only [processLink, hs, Bool.false_eq_true, if_false]
        exact ⟨_, rfl⟩
      | true =>
        cases ne with
        | some m =>
          simp only [processLink, hs, if_true]
          exact ⟨_, rfl⟩
        | none =>
          simp only [processLink, hs, if_true]
          exact ⟨_, rfl⟩

theorem batchBlocks_length (opts : ExtractOptions) (env : Nat → LinkEnv) :
    ∀ (links : List String) (start : Nat),
      (batchBlocks opts env start links).length = links.length := by
  intro links
  induction links with
  | nil => intro start; rfl
  | cons l rest ih =>
    intro start
    simp [batchBlocks, ih (start + 1)]

theorem batchBlocks_getElem (opts : ExtractOptions) (env : Nat → LinkEnv) :
    ∀ (links : List String) (start i : Nat),
      (batchBlocks opts env start links)[i]? =
        (links[i]?).map (fun link => (processLink opts link (env (start + i))).1) := by
  intro links
  induction links with
  | nil => intro start i; simp [batchBlocks]
  | cons l rest ih =>
    intro start i
    cases i with
    | zero => simp [batchBlocks]
    | succ n =>
      simp only [batchBlocks, List.getElem?_cons_succ]
      have harith : start + (n + 1) = (start + 1) + n := by omega
      rw [harith, ih (start + 1) n]

theorem batchBlocks_mem_ends_sep (opts : ExtractOptions) (env : Nat → LinkEnv) :
    ∀ (links : List String) (start : Nat) (b : String),
      b ∈ batchBlocks opts env start links →
      ∃ pre, b = pre ++ (sepLine ++ "\n") := by
  intro links
  induction links with
  | nil => intro start b h; simp [batchBlocks] at h
  | cons l rest ih =>
    intro start b h
    rcases List.mem_cons.mp h with h | h
    · rw [h]; exact processLink_ends_sep opts l (env start)
    · exact ih (start + 1) b h

/-! # Claim theorems: stage 2, report shape -/

/-- C1: stage 2 produces exactly one result block per non-blank trimmed
input line, in input order; a block depends only on its own line and its
own oracle, so one link's failure never changes the number or order of
blocks; a failing link's block is the single error line
`Error processing <url>: <message>` (followed by the separator every
block carries). -/
theorem batch_one_block_per_line (opts : ExtractOptions) (feed_links : String)
    (env : Nat → LinkEnv) :
    (batchBlocks opts env 0 (nonBlankLinks feed_links)).length =
      (nonBlankLinks feed_links).length ∧
    (∀ i, (batchBlocks opts env 0 (nonBlankLinks feed_links))[i]? =
      ((nonBlankLinks feed_links)[i]?).map
        (fun link => (processLink opts link (env i)).1)) ∧
    (∀ i link m, (nonBlankLinks feed_links)[i]? = some link →
      failMsg opts (env i) = some m →
      (batchBlocks opts env 0 (nonBlankLinks feed_links))[i]? =
        some ("Error processing " ++ link ++ ": " ++ m ++ "\n" ++ (sepLine ++ "\n"))) ∧
    ArticleContentExtractorNode.execute opts feed_links env =
      String.intercalate "\n" (batchBlocks opts env 0 (nonBlankLinks feed_links)) := by
  refine ⟨batchBlocks_length opts env _ 0, ?_, ?_, rfl⟩
  · intro i
    simpa using batchBlocks_getElem opts env (nonBlankLinks feed_links) 0 i
  · intro i link m h1 h2
    rw [batchBlocks_getElem, h1]
    simp [Nat.zero_add, processLink_fail opts link (env i) m h2, errorBlock]

/-- C1 witness: a concrete two-link batch with the first link failing. -/
theorem batch_one_block_per_line_witness :
    (batchBlocks ⟨true, true, true, false⟩ (fun _ => failEnv "boom") 0
        (nonBlankLinks "https://e.org/a \nhttps://e.org/b"))[0]? =
      some ("Error processing https://e.org/a: boom\n" ++ (sepLine ++ "\n")) := by
  have h := (batch_one_block_per_line ⟨true, true, true, false⟩
    "https://e.org/a \nhttps://e.org/b" (fun _ => failEnv "boom")).2.2.1
    0 "https://e.org/a" "boom" (by decide) (by decide)
  simpa using h

/-- C10: every result block, success or error, ends with the 50-dash
separator line followed by a newline; the report is the `"\n"`-join of the
blocks (so consecutive blocks are separated by exactly one blank line);
an input with no non-blank lines yields the empty report. -/
theorem report_separator_shape (opts : ExtractOptions) (feed_links : String)
    (env : Nat → LinkEnv) :
    (∀ b ∈ batchBlocks opts env 0 (nonBlankLinks feed_links),
      ∃ pre, b = pre ++ (sepLine ++ "\n")) ∧
    ArticleContentExtractorNode.execute opts feed_links env =
      String.intercalate "\n" (batchBlocks opts env 0 (nonBlankLinks feed_links)) ∧
    (nonBlankLinks feed_links = [] →
      ArticleContentExtractorNode.execute opts feed_links env = "") := by
  refine ⟨fun b hb => batchBlocks_mem_ends_sep opts env _ 0 b hb, rfl, ?_⟩
  intro h
  show String.intercalate "\n" (batchBlocks opts env 0 (nonBlankLinks feed_links)) = ""
  rw [h]
  rfl

/-- C10 witness: blank-only input gives the empty report. -/
theorem report_separator_shape_witness :
    ArticleContentExtractorNode.execute ⟨true, true, true, false⟩ "  \n "
      (fun _ => okEnv) = "" :=
  (report_separator_shape ⟨true, true, true, false⟩ "  \n "
    (fun _ => okEnv)).2.2 (by decide)

/-! # Claim theorems: stage 2, per-link fields -/

/-- C7: for a successfully processed link with `extract_text` enabled, the
Text field is the 500-character prefix of the article text followed by the
ellipsis marker; the excerpt before the marker never exceeds 500
characters, whatever the article length. -/
theorem text_excerpt_bounded (opts : ExtractOptions) (link : String)
    (env : LinkEnv) (hd : env.downloadErr = none) (hp : env.parseErr = none)
    (hn : opts.extract_summary = true → env.nlpErr = none)
    (hx : opts.extract_text = true) :
    (∃ pre, (processLink opts link env).1 =
      pre ++ (("Text: " ++ truncate500 env.data.text ++ "...\n")
        ++ (sepLine ++ "\n"))) ∧
    truncate500 env.data.text = ⟨env.data.text.data.take 500⟩ ∧
    (truncate500 env.data.text).length ≤ 500 := by
  obtain ⟨dl, pe, ne, da⟩ := env
  simp only at hd hp hn ⊢
  subst hd hp
  refine ⟨?_, rfl, ?_⟩
  · cases hs : opts.extract_summary with
    | true =>
      have hne := hn hs
      simp only at hne
      subst hne
      simp only [processLink, hs, hx, if_true]
      exact ⟨_, String.append_assoc _ _ _⟩
    | false =>
      simp only [processLink, hs, hx, Bool.false_eq_true, if_false, if_true]
      exact ⟨_, String.append_assoc _ _ _⟩
  · show (List.take 500 da.text.data).length ≤ 500
    exact List.length_take_le 500 da.text.data

/-- C7 witness. -/
theorem text_excerpt_bounded_witness :
    (truncate500 okEnv.data.text).length ≤ 500 :=
  (text_excerpt_bounded ⟨true, true, true, false⟩ "u" okEnv rfl rfl
    (fun _ => rfl) rfl).2.2

/-- C8: for a successfully processed link, the block always carries the
URL line, carries the Title, Summary and Text lines exactly when the
corresponding option is enabled, and the nlp pass is attempted exactly
when `extract_summary` is enabled and both download and parse
succeeded. -/
theorem fields_follow_options (opts : ExtractOptions) (link : String)
    (env : LinkEnv) :
    (env.downloadErr = none → env.parseErr = none →
      (opts.extract_summary = true → env.nlpErr = none) →
      (processLink opts link env).1 =
        ("URL: " ++ link ++ "\n")
        ++ ((if opts.extract_title = true
              then "Title: " ++ env.data.title ++ "\n" else "")
        ++ ((if opts.extract_summary = true
              then "Summary: " ++ env.data.summary ++ "\n" else "")
        ++ ((if opts.extract_text = true
              then "Text: " ++ truncate500 env.data.text ++ "...\n" else "")
        ++ (sepLine ++ "\n"))))) ∧
    (Step.nlp ∈ (processLink opts link env).2 ↔
      opts.extract_summary = true ∧ env.downloadErr = none ∧
        env.parseErr = none) := by
  obtain ⟨dl, pe, ne, da⟩ := env
  obtain ⟨t, s, x, c⟩ := opts
  constructor
  · intro hd hp hn
    simp only at hd hp hn
    subst hd hp
    cases s with
    | true =>
      have hne := hn rfl
      simp only at hne
      subst hne
      cases t <;> cases x <;>
        simp [processLink, String.append_assoc, String.empty_append,
          String.append_empty]
    | false =>
      cases t <;> cases x <;>
        simp [processLink, String.append_assoc, String.empty_append,
          String.append_empty]
  · cases dl with
    | some m => simp [processLink]
    | none =>
      cases pe with
      | some m => simp [processLink]
      | none =>
        cases s with
        | true => cases ne <;> simp [processLink]
        | false => simp [processLink]

/-- C8 witness: all options enabled on a successful link. -/
theorem fields_follow_options_witness :
    (processLink ⟨true, true, true, false⟩ "u" okEnv).1 =
      ("URL: " ++ "u" ++ "\n")
      ++ (("Title: " ++ okEnv.data.title ++ "\n")
      ++ (("Summary: " ++ okEnv.data.summary ++ "\n")
      ++ (("Text: " ++ truncate500 okEnv.data.text ++ "...\n")
      ++ (sepLine ++ "\n")))) := by
  have h := (fields_follow_options ⟨true, true, true, false⟩ "u" okEnv).1
    rfl rfl (fun _ => rfl)
  simpa using h

/-! # Claim theorems: stage 2, effect trace -/

theorem stepEffect_ne_assetCheck (i : Nat) (st : Step) :
    stepEffect i st ≠ Effect.assetCheck := by
  cases st <;> simp [stepEffect]

theorem batchEffects_assetCheck_not_mem (opts : ExtractOptions)
    (env : Nat → LinkEnv) :
    ∀ (links : List String) (start : Nat),
      Effect.assetCheck ∉ batchEffects opts env start links := by
  intro links
  induction links with
  | nil => intro start h; simp [batchEffects] at h
  | cons l rest ih =>
    intro start h
    rcases List.mem_append.mp h with h1 | h2
    · rcases List.mem_map.mp h1 with ⟨st, _, hst⟩
      exact stepEffect_ne_assetCheck _ _ hst
    · exact ih (start + 1) h2

theorem cleanup_assetCheck_not_mem (clear present : Bool) :
    Effect.assetCheck ∉ punktCleanupEffects clear present := by
  cases clear <;> cases present <;> simp [punktCleanupEffects]

/-- C5 (amended): the punkt check/download prologue runs on every
invocation regardless of `extract_summary`: its effects head the trace,
the availability check occurs exactly once per invocation, and neither the
batch loop nor the cleanup epilogue ever performs it. -/
theorem asset_check_once_per_invocation (opts : ExtractOptions)
    (feed_links : String) (env : Nat → LinkEnv) (present dlOk : Bool) :
    ArticleContentExtractorNode.executeEffects opts feed_links env present dlOk =
      (checkPunkt present dlOk).2
        ++ (batchEffects opts env 0 (nonBlankLinks feed_links)
        ++ punktCleanupEffects opts.clear_nltk_data (checkPunkt present dlOk).1) ∧
    List.count Effect.assetCheck (checkPunkt present dlOk).2 = 1 ∧
    Effect.assetCheck ∉ batchEffects opts env 0 (nonBlankLinks feed_links) ∧
    Effect.assetCheck ∉
      punktCleanupEffects opts.clear_nltk_data (checkPunkt present dlOk).1 ∧
    List.count Effect.assetCheck
      (ArticleContentExtractorNode.executeEffects opts feed_links env
        present dlOk) = 1 := by
  have h1 : ArticleContentExtractorNode.executeEffects opts feed_links env
      present dlOk =
      (checkPunkt present dlOk).2
        ++ (batchEffects opts env 0 (nonBlankLinks feed_links)
        ++ punktCleanupEffects opts.clear_nltk_data (checkPunkt present dlOk).1) := by
    simp [ArticleContentExtractorNode.executeEffects, List.append_assoc]
  have h2 : List.count Effect.assetCheck (checkPunkt present dlOk).2 = 1 := by
    cases present <;> rfl
  have h3 := batchEffects_assetCheck_not_mem opts env (nonBlankLinks feed_links) 0
  have h4 := cleanup_assetCheck_not_mem opts.clear_nltk_data
    (checkPunkt present dlOk).1
  refine ⟨h1, h2, h3, h4, ?_⟩
  rw [h1, List.count_append, List.count_append, h2,
    List.count_eq_zero.mpr h3, List.count_eq_zero.mpr h4]

/-- C5 counterexample: with `extract_summary` disabled the invocation
still performs the punkt availability check and, on a cache miss, the
download — refuting "the check is performed only when `extract_summary`
is enabled". -/
theorem asset_check_runs_without_summary :
    (⟨false, false, false, false⟩ : ExtractOptions).extract_summary = false ∧
    Effect.assetCheck ∈ ArticleContentExtractorNode.executeEffects
      ⟨false, false, false, false⟩ "https://example.org/a"
      (fun _ => okEnv) false true ∧
    Effect.assetFetch ∈ ArticleContentExtractorNode.executeEffects
      ⟨false, false, false, false⟩ "https://example.org/a"
      (fun _ => okEnv) false true := by
  decide

/-- C9: when the punkt asset is already present, the check performs no
fetch; a second check right after a first one (from a present state, or
from an absent state whose download succeeded) performs no fetch
either. -/
theorem punkt_check_idempotent (present dlOk dlOk₂ : Bool) :
    (present = true → (checkPunkt present dlOk).2 = [Effect.assetCheck] ∧
      Effect.assetFetch ∉ (checkPunkt present dlOk).2) ∧
    (present = true →
      (checkPunkt (checkPunkt present dlOk).1 dlOk₂).2 = [Effect.assetCheck]) ∧
    (present = false → dlOk = true →
      (checkPunkt (checkPunkt present dlOk).1 dlOk₂).2 = [Effect.assetCheck]) := by
  refine ⟨?_, ?_, ?_⟩
  · rintro rfl
    exact ⟨rfl, by simp [checkPunkt]⟩
  · rintro rfl
    rfl
  · rintro rfl rfl
    rfl

/-- C9 witness: present cache, two consecutive checks, no fetch. -/
theorem punkt_check_idempotent_witness :
    (checkPunkt (checkPunkt true false).1 false).2 = [Effect.assetCheck] :=
  (punkt_check_idempotent true false false).2.1 rfl
